import Mathlib

/-!
Shallow embedding of `src/c/ch10/ad3.c` (3D advection-diffusion residual
assembler on a structured grid).  Machine doubles are modelled by exact
arithmetic in a `LinearOrderedField` (instantiated at `ℚ` for concrete
evaluations and at `ℝ` for the analytic limiter facts); all operations
involved are field operations.  A grid index is the triple `(k, j, i)` in
the array order `au[k][j][i]` of the C code, so `.1` is the z-index `k`,
`.2.1` is the y-index `j`, and `.2.2` is the x-index `i`.
-/

set_option maxRecDepth 8000

abbrev Idx := ℤ × ℤ × ℤ

/-- The list `[lo, lo+1, ..., hi-1]`: the successive values of the control
variable of a C loop `for (v = lo; v < hi; v++)`. -/
def intRangeAux (lo : ℤ) : ℕ → List ℤ
  | 0 => []
  | n + 1 => lo :: intRangeAux (lo + 1) n

def intRange (lo hi : ℤ) : List ℤ := intRangeAux lo (hi - lo).toNat

/-- Functional array write: `upd F p v` is the array `F` with entry `p`
overwritten by `v` (models the C assignment `aF[k][j][i] = v`). -/
def upd {α : Type*} (F : Idx → α) (p : Idx) (v : α) : Idx → α :=
  fun r => if r = p then v else F r

/-- `ad3.c` line 57: `static double centered(double theta) { return 0.5; }` -/
def centered {α : Type*} [LinearOrderedField α] (_theta : α) : α := 1/2

/-- `ad3.c` lines 61-64:
`vanleer(theta) = 0.5 * (theta + |theta|) / (1.0 + |theta|)`. -/
def vanleer {α : Type*} [LinearOrderedField α] (theta : α) : α :=
  1/2 * (theta + |theta|) / (1 + |theta|)

/-- `ad3.c` line 66: `typedef enum {NONE, CENTERED, VANLEER} LimiterType;` -/
inductive LimiterType where
  | NONE : LimiterType
  | CENTERED : LimiterType
  | VANLEER : LimiterType
deriving DecidableEq

/-- `ad3.c` line 69:
`static void* limiterptr[] = {NULL, &centered, &vanleer};`
(`NULL` becomes `none`, a function pointer becomes `some f`). -/
def limiterptr (lim : LimiterType) : Option (ℚ → ℚ) :=
  match lim with
  | .NONE => none
  | .CENTERED => some centered
  | .VANLEER => some vanleer

/-- The fields of `DMDALocalInfo` read by `ad3.c`: global grid dimensions
`mx, my, mz` and the locally owned box `[xs,xs+xm) × [ys,ys+ym) × [zs,zs+zm)`
(in x, y, z respectively). -/
structure LocalInfo where
  mx : ℤ
  my : ℤ
  mz : ℤ
  xs : ℤ
  xm : ℤ
  ys : ℤ
  ym : ℤ
  zs : ℤ
  zm : ℤ

/-- The application context of `ad3.c` (struct `AdCtx`, lines 71-77),
together with the evaluation wrappers used by `FormFunctionLocal`.
The wrapper functions `a_wind`, `g_source`, `b_bdry` are called in
`FormFunctionLocal` (lines 179, 192, 204) but their bodies are not part of
`src/`; they are modelled as abstract fields of the context (they evaluate
the wind vector component `q` at a point, the source term, and the Dirichlet
boundary value, all determined by the configured problem). -/
structure AdCtx (α : Type*) where
  eps : α
  a_wind : α → α → α → ℕ → α
  g_source : α → α → α → α → α
  b_bdry : α → α → α
  limiter_fcn : Option (α → α)

/-- x-offset of face direction `q`: `di = (q == 0) ? 1 : 0` (line 201). -/
def diq (q : ℕ) : ℤ := if q = 0 then 1 else 0

/-- y-offset of face direction `q`: `dj = (q == 1) ? 1 : 0` (line 202). -/
def djq (q : ℕ) : ℤ := if q = 1 then 1 else 0

/-- z-offset of face direction `q`: `dk = (q == 2) ? 1 : 0` (line 203). -/
def dkq (q : ℕ) : ℤ := if q = 2 then 1 else 0

/-- Cell spacings of `FormFunctionLocal` (lines 153-155):
`hx = 2/(mx-1)`, `hy = 2/(my-1)`, `hz = 2/mz` (z is the periodic axis). -/
def gridHx {α : Type*} [LinearOrderedField α] (info : LocalInfo) : α :=
  2 / ((info.mx : α) - 1)

def gridHy {α : Type*} [LinearOrderedField α] (info : LocalInfo) : α :=
  2 / ((info.my : α) - 1)

def gridHz {α : Type*} [LinearOrderedField α] (info : LocalInfo) : α :=
  2 / (info.mz : α)

/-- Cell-center x-coordinate used by `FormFunctionLocal` (line 174):
`x = -1 + i*hx`. -/
def cellX {α : Type*} [LinearOrderedField α] (info : LocalInfo) (i : ℤ) : α :=
  -1 + (i : α) * gridHx info

/-- Cell-center y-coordinate used by `FormFunctionLocal` (line 172):
`y = -1 + j*hy`. -/
def cellY {α : Type*} [LinearOrderedField α] (info : LocalInfo) (j : ℤ) : α :=
  -1 + (j : α) * gridHy info

/-- Cell-center z-coordinate used by `FormFunctionLocal` (line 170):
`z = -1 + (k+0.5)*hz`. -/
def cellZ {α : Type*} [LinearOrderedField α] (info : LocalInfo) (k : ℤ) : α :=
  -1 + ((k : α) + 1/2) * gridHz info

/-- The wind value at the face midpoint: line 204,
`a = a_wind(x+halfx*di, y+halfy*dj, z+halfz*dk, q, usr)`. -/
def faceWind {α : Type*} [LinearOrderedField α] (info : LocalInfo)
    (usr : AdCtx α) (k j i : ℤ) (q : ℕ) : α :=
  usr.a_wind (cellX info i + gridHx info / 2 * (diq q : α))
             (cellY info j + gridHy info / 2 * (djq q : α))
             (cellZ info k + gridHz info / 2 * (dkq q : α)) q

/-- The advective face flux computed by `FormFunctionLocal` for direction
`q` at cell `(k,j,i)` (lines 204-216): wind at the face midpoint, upwind
value selected by the sign of the wind, base flux `a * u_up`, plus the
limiter correction `a * limiter(theta) * (u_dn - u_up)` when a limiter is
configured, the cell is `deep`, and `u_dn != u_up`. -/
def faceFlux {α : Type*} [LinearOrderedField α] (info : LocalInfo)
    (usr : AdCtx α) (au : Idx → α) (k j i : ℤ) (q : ℕ) : α :=
  let di := diq q
  let dj := djq q
  let dk := dkq q
  let a := faceWind info usr k j i q
  let u_up := if 0 ≤ a then au (k, j, i) else au (k + dk, j + dj, i + di)
  let flux := a * u_up
  let deep := 1 < i ∧ i < info.mx - 2 ∧ 1 < j ∧ j < info.my - 2
  match usr.limiter_fcn with
  | none => flux
  | some lf =>
    if deep then
      let u_dn := if 0 ≤ a then au (k + dk, j + dj, i + di) else au (k, j, i)
      if u_dn ≠ u_up then
        let u_far := if 0 ≤ a then au (k - dk, j - dj, i - di)
                     else au (k + 2*dk, j + 2*dj, i + 2*di)
        let theta := (u_up - u_far) / (u_dn - u_up)
        flux + a * lf theta * (u_dn - u_up)
      else flux
    else flux

/-- The flux-accumulation `switch` of `FormFunctionLocal` (lines 218-237).
Faithful to the source: the labels are `0`, `1` and `3` (`case 3` for the
top face, line 231), so a call with `q = 2` matches no label and leaves the
residual array unchanged, exactly like the C `switch` without a `default`. -/
def fluxSwitch {α : Type*} [LinearOrderedField α] (info : LocalInfo)
    (k j i : ℤ) (q : ℕ) (flux : α) (F : Idx → α) : Idx → α :=
  match q with
  | 0 =>
    let Fa := if 0 < i then upd F (k, j, i) (F (k, j, i) + flux / gridHx info)
              else F
    if i < info.mx - 1 ∧ i + 1 < info.xs + info.xm then
      upd Fa (k, j, i + 1) (Fa (k, j, i + 1) - flux / gridHx info)
    else Fa
  | 1 =>
    let Fa := if 0 < j then upd F (k, j, i) (F (k, j, i) + flux / gridHy info)
              else F
    if j < info.my - 1 ∧ j + 1 < info.ys + info.ym then
      upd Fa (k, j + 1, i) (Fa (k, j + 1, i) - flux / gridHy info)
    else Fa
  | 3 =>
    let Fa := if info.zs ≤ k then
                upd F (k, j, i) (F (k, j, i) + flux / gridHz info)
              else F
    if k + 1 < info.zs + info.zm then
      upd Fa (k + 1, j, i) (Fa (k + 1, j, i) - flux / gridHz info)
    else Fa
  | _ => F

/-- The non-advective part of the loop body of `FormFunctionLocal`
(lines 177-194), guarded by `k >= zs`: Dirichlet injection
`aF = au - b_bdry(y,z)` at `i = mx-1` (line 179), `aF = au` at `i = 0`,
`j = 0`, `j = my-1` (line 181), and otherwise the second-difference
diffusion plus source update `aF -= eps*(uxx+uyy+uzz) + g_source(x,y,z,u)`
(lines 183-192), with the one-sided boundary substitutions for `uE`, `uW`,
`uN`, `uS` (lines 184-187). -/
def nonAdvectiveStep {α : Type*} [LinearOrderedField α] (info : LocalInfo)
    (usr : AdCtx α) (au : Idx → α) (k j i : ℤ) (F : Idx → α) : Idx → α :=
  if info.zs ≤ k then
    if i = info.mx - 1 then
      upd F (k, j, i)
        (au (k, j, i) - usr.b_bdry (cellY info j) (cellZ info k))
    else if i = 0 ∨ j = 0 ∨ j = info.my - 1 then
      upd F (k, j, i) (au (k, j, i))
    else
      let uu := au (k, j, i)
      let uE := if i = info.mx - 2 then usr.b_bdry (cellY info j) (cellZ info k)
                else au (k, j, i + 1)
      let uW := if i = 1 then 0 else au (k, j, i - 1)
      let uN := if j = info.my - 2 then 0 else au (k, j + 1, i)
      let uS := if j = 1 then 0 else au (k, j - 1, i)
      let uxx := (uW - 2 * uu + uE) / (gridHx info * gridHx info)
      let uyy := (uS - 2 * uu + uN) / (gridHy info * gridHy info)
      let uzz := (au (k - 1, j, i) - 2 * uu + au (k + 1, j, i)) /
        (gridHz info * gridHz info)
      upd F (k, j, i)
        (F (k, j, i) -
          (usr.eps * (uxx + uyy + uzz) +
            usr.g_source (cellX info i) (cellY info j) (cellZ info k) uu))
  else F

/-- The body of the main triple loop of `FormFunctionLocal` for one index
triple `(k,j,i)` (lines 170-238): the non-advective part, the `continue`
for `i = mx-1 || j = my-1` (line 195), then the loop over the three face
directions `q = 0,1,2` with the skip `q < 2 && k < zs` (line 200), the face
flux, and the accumulation `switch`. -/
def cellStep {α : Type*} [LinearOrderedField α] (info : LocalInfo)
    (usr : AdCtx α) (au : Idx → α) (k j i : ℤ) (F : Idx → α) : Idx → α :=
  let F1 := nonAdvectiveStep info usr au k j i F
  if i = info.mx - 1 ∨ j = info.my - 1 then F1
  else
    (List.range 3).foldl
      (fun F2 q =>
        if q < 2 ∧ k < info.zs then F2
        else fluxSwitch info k j i q (faceFlux info usr au k j i q) F2)
      F1

/-- The clearing loop of `FormFunctionLocal` (lines 163-167): set every
owned entry of the residual array to `0`. -/
def clearF {α : Type*} [LinearOrderedField α] (info : LocalInfo)
    (F : Idx → α) : Idx → α :=
  (intRange info.zs (info.zs + info.zm)).foldl
    (fun Fk k =>
      (intRange info.ys (info.ys + info.ym)).foldl
        (fun Fj j =>
          (intRange info.xs (info.xs + info.xm)).foldl
            (fun Fi i => upd Fi (k, j, i) 0) Fj)
        Fk)
    F

/-- `FormFunctionLocal` of `ad3.c` (lines 145-243): clear the owned part of
the residual array, then traverse `k` from `zs-1` (one layer below the owned
box, for top-face fluxes of the layer below) and `j`, `i` over the owned
ranges, performing `cellStep` at each triple.  The result is the final
residual array. -/
def FormFunctionLocal {α : Type*} [LinearOrderedField α] (info : LocalInfo)
    (usr : AdCtx α) (au : Idx → α) (aF : Idx → α) : Idx → α :=
  (intRange (info.zs - 1) (info.zs + info.zm)).foldl
    (fun Fk k =>
      (intRange info.ys (info.ys + info.ym)).foldl
        (fun Fj j =>
          (intRange info.xs (info.xs + info.xm)).foldl
            (fun Fi i => cellStep info usr au k j i Fi) Fj)
        Fk)
    (clearF info aF)

/-! ## The remaining definitions: exact solution, `main` configuration -/

/-- `ad3.c` line 98: `EE = 2.0 * PETSC_PI`. -/
noncomputable def EE : ℝ := 2 * Real.pi

/-- `ad3.c` line 99: `FF = PETSC_PI / 2.0`. -/
noncomputable def FF : ℝ := Real.pi / 2

/-- `ad3.c` lines 101-105: the manufactured boundary-layer solution
`layer_u(x,y,z,eps) = ((exp((x-1)/eps) - C)/(1 - C)) * sin(EE(y+1)) * sin(FF(z+1))`
with `C = exp(-2/eps)`. -/
noncomputable def layer_u (x y z eps : ℝ) : ℝ :=
  ((Real.exp ((x - 1) / eps) - Real.exp (-2 / eps)) /
      (1 - Real.exp (-2 / eps)))
    * Real.sin (EE * (y + 1)) * Real.sin (FF * (z + 1))

/-- `FormLayerUExact` of `ad3.c` (lines 121-142), faithful to the source:
`hx = 2/(mx-1)` (line 126), `hz = 2/my` (line 127), `hy = 2/(mz-1)`
(line 128); for each owned `k`, `z = -1 + j*hz` (line 131) where `j` is the
*current value of the loop variable `j`* — indeterminate (parameter `j0`) on
the first `k` iteration and `ys + ym` afterwards (the value `j` holds after
the inner loop exits); `y = -1 + (j+0.5)*hy` (line 133); `x = -1 + i*hx`
(line 135); the written value is `u x y z` where `u` abstracts
`layer_u(.,.,., usr->eps)` (line 136).  The state threaded through the fold
is the pair (current value of the variable `j`, array so far). -/
def FormLayerUExact {α : Type*} [LinearOrderedField α] (info : LocalInfo)
    (u : α → α → α → α) (j0 : ℤ) (A : Idx → α) : Idx → α :=
  let hx : α := 2 / ((info.mx : α) - 1)
  let hz : α := 2 / (info.my : α)
  let hy : α := 2 / ((info.mz : α) - 1)
  ((intRange info.zs (info.zs + info.zm)).foldl
    (fun (st : ℤ × (Idx → α)) (k : ℤ) =>
      let z : α := -1 + (st.1 : α) * hz
      let A2 := (intRange info.ys (info.ys + info.ym)).foldl
        (fun Aj (j : ℤ) =>
          let y : α := -1 + ((j : α) + 1/2) * hy
          (intRange info.xs (info.xs + info.xm)).foldl
            (fun Ai (i : ℤ) =>
              let x : α := -1 + (i : α) * hx
              upd Ai (k, j, i) (u x y z)) Aj)
        st.2
      (info.ys + max info.ym 0, A2))
    (j0, A)).2

/-- `main` line 281: the stencil (ghost halo) width passed to
`DMDACreate3d` is `(user.limiter_fcn == NULL) ? 1 : 2`, where
`user.limiter_fcn = limiterptr[limiter]` (line 270). -/
def stencilWidth (lim : LimiterType) : ℤ :=
  if (limiterptr lim).isNone then 1 else 2

/-- `main` line 272: the default z grid dimension,
`mz = (user.limiter_fcn == NULL) ? 6 : 5`. -/
def mainMz (lim : LimiterType) : ℤ :=
  if (limiterptr lim).isNone then 6 else 5

/-- The configuration state produced by the option-processing prologue of
`main` (lines 258-282), up to and including the arguments given to the grid
creation call. -/
structure MainSetup where
  eps : ℚ
  limiter : LimiterType
  limiter_fcn : Option (ℚ → ℚ)
  mzDefault : ℤ
  stencil : ℤ

/-- The option-processing prologue of `main` (lines 258-272): default
`user.eps = 1.0`; the `-eps` option value if given; the check
`if (user.eps <= 0.0) SETERRQ1(...)` (lines 264-266), which returns the
fatal error before the limiter option is stored and before `DMDACreate3d`;
then the `-limiter` option (default `CENTERED`), `limiter_fcn`, the `mz`
default, and the stencil width.  An `Except.error` models the `SETERRQ1`
abort: no `MainSetup` (hence no grid) is ever produced in that case. -/
def mainSetup (epsOpt : Option ℚ) (limOpt : Option LimiterType) :
    Except String MainSetup :=
  let eps := epsOpt.getD 1
  if eps ≤ 0 then Except.error "eps invalid ... eps > 0 required"
  else
    let limiter := limOpt.getD LimiterType.CENTERED
    Except.ok
      { eps := eps
        limiter := limiter
        limiter_fcn := limiterptr limiter
        mzDefault := mainMz limiter
        stencil := stencilWidth limiter }

/-- Membership of an index triple `(k,j,i)` in the owned box
`[zs,zs+zm) × [ys,ys+ym) × [xs,xs+xm)` of the `GridView`. -/
def ownedCell (info : LocalInfo) (p : Idx) : Prop :=
  info.zs ≤ p.1 ∧ p.1 < info.zs + info.zm ∧
  info.ys ≤ p.2.1 ∧ p.2.1 < info.ys + info.ym ∧
  info.xs ≤ p.2.2 ∧ p.2.2 < info.xs + info.xm

instance (info : LocalInfo) (p : Idx) : Decidable (ownedCell info p) := by
  unfold ownedCell; infer_instance

/-! ## Limiter properties (C7) -/

/-- C7: For every finite real `theta`, `vanleer theta` lies in `[0, 1)` and
equals `0` for every `theta ≤ 0`; `centered theta` equals `0.5` for every
`theta`. -/
theorem limiter_bounds (theta : ℝ) :
    (0 ≤ vanleer theta ∧ vanleer theta < 1) ∧
    (theta ≤ 0 → vanleer theta = 0) ∧ centered theta = 1/2 := by
  have habs : (0:ℝ) ≤ |theta| := abs_nonneg theta
  have hpos : (0:ℝ) < 1 + |theta| := by linarith
  have hnum : (0:ℝ) ≤ theta + |theta| := by
    have h := neg_abs_le theta; linarith
  refine ⟨⟨?_, ?_⟩, ?_, rfl⟩
  · exact div_nonneg (by linarith) hpos.le
  · unfold vanleer
    rw [div_lt_one hpos]
    have h := le_abs_self theta
    linarith
  · intro h
    unfold vanleer
    rw [abs_of_nonpos h]
    ring

/-- Witness for `limiter_bounds` at `theta = -2`. -/
theorem limiter_bounds_witness :
    vanleer (-2 : ℝ) = 0 := (limiter_bounds (-2)).2.1 (by norm_num)

/-! ## Upwind reduction with no limiter (C6) -/

/-- C6: with `limiter_fcn = NULL` (limiter `none`), every face flux equals
exactly `a * u_up`, the wind at the face midpoint times the value of the
cell the wind blows from (the lower-index cell when `a ≥ 0`, the
higher-index neighbor when `a < 0`), with no correction term. -/
theorem flux_limiter_none_upwind (info : LocalInfo) (usr : AdCtx ℚ)
    (au : Idx → ℚ) (k j i : ℤ) (q : ℕ) (hnone : usr.limiter_fcn = none) :
    faceFlux info usr au k j i q =
      faceWind info usr k j i q *
        (if 0 ≤ faceWind info usr k j i q then au (k, j, i)
         else au (k + dkq q, j + djq q, i + diq q)) := by
  simp only [faceFlux, hnone]

/-- Concrete witness context: a 3×3×1 grid owned as a single box. -/
def infoA : LocalInfo :=
  { mx := 3, my := 3, mz := 1, xs := 0, xm := 3, ys := 0, ym := 3,
    zs := 0, zm := 1 }

/-- Concrete context with no limiter, unit wind in all directions, zero
source and boundary data. -/
def usrNone : AdCtx ℚ :=
  { eps := 1
    a_wind := fun _ _ _ _ => 1
    g_source := fun _ _ _ _ => 0
    b_bdry := fun _ _ => 0
    limiter_fcn := none }

/-- Concrete context with the van Leer limiter configured. -/
def usrVan : AdCtx ℚ :=
  { eps := 1
    a_wind := fun _ _ _ _ => 1
    g_source := fun _ _ _ _ => 0
    b_bdry := fun _ _ => 0
    limiter_fcn := some vanleer }

/-- Witness for `flux_limiter_none_upwind`: on `usrNone` (unit wind) and
the constant field `1`, the east-face flux at the origin cell is `1`. -/
theorem flux_limiter_none_upwind_witness :
    faceFlux infoA usrNone (fun _ => 1) 0 0 0 0 = 1 := by
  have h := flux_limiter_none_upwind infoA usrNone (fun _ => 1) 0 0 0 0 rfl
  simpa [faceWind, usrNone] using h

/-! ## Degenerate-ratio safety (C5) -/

/-- C5: whenever the downwind and upwind values coincide (the two cells
adjacent to the face hold equal values), the assembled face flux equals the
unlimited upwind flux `a * u`, for every configured limiter: the quotient
`theta = (u_up - u_far)/(u_dn - u_up)` is behind the guard `u_dn != u_up`
and is not reached, so no division by `u_dn - u_up` influences the flux. -/
theorem flux_equal_values_upwind (info : LocalInfo) (usr : AdCtx ℚ)
    (au : Idx → ℚ) (k j i : ℤ) (q : ℕ)
    (heq : au (k + dkq q, j + djq q, i + diq q) = au (k, j, i)) :
    faceFlux info usr au k j i q = faceWind info usr k j i q * au (k, j, i) := by
  cases h : usr.limiter_fcn with
  | none => simp [faceFlux, h, heq]
  | some lf => simp [faceFlux, h, heq]

/-- Witness for `flux_equal_values_upwind`: with the van Leer limiter and
the constant field `2`, the east-face flux at the origin cell is `2`. -/
theorem flux_equal_values_upwind_witness :
    faceFlux infoA usrVan (fun _ => 2) 0 0 0 0 = 2 := by
  have h := flux_equal_values_upwind infoA usrVan (fun _ => 2) 0 0 0 0 rfl
  simpa [faceWind, usrVan] using h

/-! ## Stencil width vs limiter (C8, part 1: the claim as stated fails) -/

/-- C8 counterexample: the claim says the halo width is 1 when the limiter
is `none` *or `centered`*; but `limiterptr[CENTERED] = &centered` is not
`NULL`, so `main` passes stencil width 2 for the centered limiter. -/
theorem stencil_centered_not_one : ¬ stencilWidth LimiterType.CENTERED = 1 := by
  decide

lemma diq_abs (q : ℕ) : |diq q| ≤ 1 := by
  unfold diq; split <;> norm_num

lemma djq_abs (q : ℕ) : |djq q| ≤ 1 := by
  unfold djq; split <;> norm_num

lemma dkq_abs (q : ℕ) : |dkq q| ≤ 1 := by
  unfold dkq; split <;> norm_num

lemma faceFlux_au_congr (info : LocalInfo) (usr : AdCtx ℚ) (au au2 : Idx → ℚ)
    (k j i : ℤ) (q : ℕ) (w : ℤ) (h1 : 1 ≤ w)
    (hlim : usr.limiter_fcn ≠ none → 2 ≤ w)
    (hag : ∀ a b c : ℤ, |a - k| ≤ w → |b - j| ≤ w → |c - i| ≤ w →
      au (a, b, c) = au2 (a, b, c)) :
    faceFlux info usr au k j i q = faceFlux info usr au2 k j i q := by
  have hdi := abs_le.mp (diq_abs q)
  have hdj := abs_le.mp (djq_abs q)
  have hdk := abs_le.mp (dkq_abs q)
  have e0 : au (k, j, i) = au2 (k, j, i) :=
    hag k j i (abs_le.mpr (by omega)) (abs_le.mpr (by omega))
      (abs_le.mpr (by omega))
  have e1 : au (k + dkq q, j + djq q, i + diq q) =
      au2 (k + dkq q, j + djq q, i + diq q) :=
    hag _ _ _ (abs_le.mpr (by omega)) (abs_le.mpr (by omega))
      (abs_le.mpr (by omega))
  cases hl : usr.limiter_fcn with
  | none => simp only [faceFlux, hl, e0, e1]
  | some lf =>
    have hw2 : 2 ≤ w := hlim (by simp [hl])
    have e2 : au (k - dkq q, j - djq q, i - diq q) =
        au2 (k - dkq q, j - djq q, i - diq q) :=
      hag _ _ _ (abs_le.mpr (by omega)) (abs_le.mpr (by omega))
        (abs_le.mpr (by omega))
    have e3 : au (k + 2*dkq q, j + 2*djq q, i + 2*diq q) =
        au2 (k + 2*dkq q, j + 2*djq q, i + 2*diq q) :=
      hag _ _ _ (abs_le.mpr (by omega)) (abs_le.mpr (by omega))
        (abs_le.mpr (by omega))
    simp only [faceFlux, hl, e0, e1, e2, e3]

lemma cellStep_au_congr (info : LocalInfo) (usr : AdCtx ℚ) (au au2 : Idx → ℚ)
    (k j i : ℤ) (F : Idx → ℚ) (w : ℤ) (h1 : 1 ≤ w)
    (hlim : usr.limiter_fcn ≠ none → 2 ≤ w)
    (hag : ∀ a b c : ℤ, |a - k| ≤ w → |b - j| ≤ w → |c - i| ≤ w →
      au (a, b, c) = au2 (a, b, c)) :
    cellStep info usr au k j i F = cellStep info usr au2 k j i F := by
  have hf : ∀ q : ℕ,
      faceFlux info usr au k j i q = faceFlux info usr au2 k j i q :=
    fun q => faceFlux_au_congr info usr au au2 k j i q w h1 hlim hag
  have e0 : au (k, j, i) = au2 (k, j, i) :=
    hag k j i (abs_le.mpr (by omega)) (abs_le.mpr (by omega))
      (abs_le.mpr (by omega))
  have eE : au (k, j, i + 1) = au2 (k, j, i + 1) :=
    hag _ _ _ (abs_le.mpr (by omega)) (abs_le.mpr (by omega))
      (abs_le.mpr (by omega))
  have eW : au (k, j, i - 1) = au2 (k, j, i - 1) :=
    hag _ _ _ (abs_le.mpr (by omega)) (abs_le.mpr (by omega))
      (abs_le.mpr (by omega))
  have eN : au (k, j + 1, i) = au2 (k, j + 1, i) :=
    hag _ _ _ (abs_le.mpr (by omega)) (abs_le.mpr (by omega))
      (abs_le.mpr (by omega))
  have eS : au (k, j - 1, i) = au2 (k, j - 1, i) :=
    hag _ _ _ (abs_le.mpr (by omega)) (abs_le.mpr (by omega))
      (abs_le.mpr (by omega))
  have eB : au (k - 1, j, i) = au2 (k - 1, j, i) :=
    hag _ _ _ (abs_le.mpr (by omega)) (abs_le.mpr (by omega))
      (abs_le.mpr (by omega))
  have eT : au (k + 1, j, i) = au2 (k + 1, j, i) :=
    hag _ _ _ (abs_le.mpr (by omega)) (abs_le.mpr (by omega))
      (abs_le.mpr (by omega))
  simp only [cellStep, nonAdvectiveStep, hf, e0, eE, eW, eN, eS, eB, eT]

/-- C8, amended: the ghost halo (stencil) width `main` configures is 1 when
`limiter_fcn` is `NULL` (limiter `none`) and 2 otherwise — so 2, not 1, for
the `centered` limiter, whose correction also reads the far-upwind
neighbour; and the invariant "halo width ≥ limiter reach" holds for every
limiter choice: whenever the limiter function matches the configured one,
`cellStep` (hence the residual at the cell) depends on the field only
through values within Chebyshev distance `stencilWidth` of the cell. -/
theorem halo_covers_reach :
    stencilWidth LimiterType.NONE = 1 ∧
    stencilWidth LimiterType.CENTERED = 2 ∧
    stencilWidth LimiterType.VANLEER = 2 ∧
    ∀ (lim : LimiterType) (info : LocalInfo) (usr : AdCtx ℚ)
      (au au2 F : Idx → ℚ) (k j i : ℤ),
      usr.limiter_fcn = limiterptr lim →
      (∀ a b c : ℤ, |a - k| ≤ stencilWidth lim → |b - j| ≤ stencilWidth lim →
        |c - i| ≤ stencilWidth lim → au (a, b, c) = au2 (a, b, c)) →
      cellStep info usr au k j i F = cellStep info usr au2 k j i F := by
  refine ⟨rfl, rfl, rfl, ?_⟩
  intro lim info usr au au2 F k j i husr hag
  refine cellStep_au_congr info usr au au2 k j i F (stencilWidth lim) ?_ ?_ hag
  · cases lim <;> norm_num [stencilWidth, limiterptr]
  · intro hne
    cases lim with
    | NONE => exact absurd husr (by simpa [limiterptr] using hne)
    | CENTERED => norm_num [stencilWidth, limiterptr]
    | VANLEER => norm_num [stencilWidth, limiterptr]

/-- A field agreeing with the constant field `1` on the halo of the origin
cell but different outside it. -/
def auOutside : Idx → ℚ := fun p =>
  if |p.1| ≤ 1 ∧ |p.2.1| ≤ 1 ∧ |p.2.2| ≤ 1 then 1 else 42

/-- Witness for `halo_covers_reach`: with no limiter, replacing the field
by one that differs only outside the width-1 halo of the origin cell leaves
`cellStep` unchanged. -/
theorem halo_covers_reach_witness :
    cellStep infoA usrNone (fun _ => 1) 0 0 0 (fun _ => 0) =
      cellStep infoA usrNone auOutside 0 0 0 (fun _ => 0) :=
  halo_covers_reach.2.2.2 LimiterType.NONE infoA usrNone (fun _ => 1)
    auOutside (fun _ => 0) 0 0 0 rfl
    (fun a b c h1 h2 h3 => by
      simp only [auOutside]
      rw [if_pos ⟨by simpa using h1, by simpa using h2, by simpa using h3⟩])

/-! ## Configuration-time eps validation (C9) -/

/-- C9: a configured `eps ≤ 0` (including a defaulted value, which is 1 and
therefore valid) makes `main` fail with the fatal `SETERRQ1` error during
option processing, before any grid parameter is assembled; any `eps > 0`
passes validation and produces the full setup with that `eps`. -/
theorem eps_rejected_before_grid (epsOpt : Option ℚ)
    (limOpt : Option LimiterType) :
    (epsOpt.getD 1 ≤ 0 →
      mainSetup epsOpt limOpt =
        Except.error "eps invalid ... eps > 0 required") ∧
    (0 < epsOpt.getD 1 →
      ∃ s : MainSetup, mainSetup epsOpt limOpt = Except.ok s ∧
        s.eps = epsOpt.getD 1) := by
  constructor
  · intro h
    simp [mainSetup, h]
  · intro h
    refine ⟨{ eps := epsOpt.getD 1
              limiter := limOpt.getD LimiterType.CENTERED
              limiter_fcn := limiterptr (limOpt.getD LimiterType.CENTERED)
              mzDefault := mainMz (limOpt.getD LimiterType.CENTERED)
              stencil := stencilWidth (limOpt.getD LimiterType.CENTERED) },
            ?_, rfl⟩
    simp [mainSetup, not_le.mpr h]

/-- Witness for `eps_rejected_before_grid` at `eps = -1` (rejected) and at
the default `eps = 1` (accepted). -/
theorem eps_rejected_before_grid_witness :
    mainSetup (some (-1)) none =
      Except.error "eps invalid ... eps > 0 required" ∧
    ∃ s : MainSetup, mainSetup none none = Except.ok s ∧ s.eps = 1 := by
  constructor
  · exact (eps_rejected_before_grid (some (-1)) none).1 (by norm_num)
  · simpa using (eps_rejected_before_grid none none).2 (by norm_num)

/-! ## Concrete grids for evaluating the assembler -/

/-- A 3×3×2 grid owned as a single box. -/
def infoB : LocalInfo :=
  { mx := 3, my := 3, mz := 2, xs := 0, xm := 3, ys := 0, ym := 3,
    zs := 0, zm := 2 }

/-- Context with wind blowing only in the z direction (component `q = 2`
equal to 1, the others 0), no diffusion, no source, zero boundary data, no
limiter. -/
def usrZwind : AdCtx ℚ :=
  { eps := 0
    a_wind := fun _ _ _ q => if q = 2 then 1 else 0
    g_source := fun _ _ _ _ => 0
    b_bdry := fun _ _ => 0
    limiter_fcn := none }

/-- A field depending only on the z index, with period 2 so that its
values at ghost indices coincide with the periodic wrap (valid ghosts). -/
def auZperiodic : Idx → ℚ := fun p => if p.1 % 2 = 0 then 0 else 1

/-! ## C1: top-face (q = 2) fluxes are never accumulated -/

/-- The accumulation `switch` of lines 218-237 has labels `0`, `1`, `3`,
but the direction loop only produces `q = 0, 1, 2`, so the `q = 2` call
falls through every label and returns the residual array unchanged. -/
lemma fluxSwitch_q2 {α : Type*} [LinearOrderedField α] (info : LocalInfo)
    (k j i : ℤ) (flux : α) (F : Idx → α) :
    fluxSwitch info k j i 2 flux F = F := rfl

/-- `faceFlux` depends on the context only through the face wind and the
limiter choice. -/
lemma faceFlux_wind_congr (info : LocalInfo) (usr usr2 : AdCtx ℚ)
    (au : Idx → ℚ) (k j i : ℤ) (q : ℕ)
    (hw : faceWind info usr2 k j i q = faceWind info usr k j i q)
    (hl : usr2.limiter_fcn = usr.limiter_fcn) :
    faceFlux info usr2 au k j i q = faceFlux info usr au k j i q := by
  simp only [faceFlux, hw, hl]

/-- Replacing the z-component (`q = 2`) of the wind changes nothing in one
`cellStep`: only the `q = 0` and `q = 1` fluxes ever reach an accumulation
case. -/
lemma cellStep_zwind (info : LocalInfo) (usr : AdCtx ℚ)
    (aw : ℚ → ℚ → ℚ → ℕ → ℚ) (au : Idx → ℚ) (k j i : ℤ) (F : Idx → ℚ)
    (hq : ∀ x y z q, q ≠ 2 → aw x y z q = usr.a_wind x y z q) :
    cellStep info { usr with a_wind := aw } au k j i F =
      cellStep info usr au k j i F := by
  have h0 : faceFlux info { usr with a_wind := aw } au k j i 0 =
      faceFlux info usr au k j i 0 := by
    refine faceFlux_wind_congr info usr _ au k j i 0 ?_ rfl
    simp only [faceWind]
    exact hq _ _ _ 0 (by decide)
  have h1 : faceFlux info { usr with a_wind := aw } au k j i 1 =
      faceFlux info usr au k j i 1 := by
    refine faceFlux_wind_congr info usr _ au k j i 1 ?_ rfl
    simp only [faceWind]
    exact hq _ _ _ 1 (by decide)
  have hna : nonAdvectiveStep info { usr with a_wind := aw } au k j i F =
      nonAdvectiveStep info usr au k j i F := rfl
  simp only [cellStep, hna, show List.range 3 = [0, 1, 2] from rfl,
    List.foldl_cons, List.foldl_nil, h0, h1, fluxSwitch_q2]

/-- Replacing the z-component of the wind changes nothing in the whole
assembled residual. -/
lemma FormFunctionLocal_zwind (info : LocalInfo) (usr : AdCtx ℚ)
    (aw : ℚ → ℚ → ℚ → ℕ → ℚ) (au aF : Idx → ℚ)
    (hq : ∀ x y z q, q ≠ 2 → aw x y z q = usr.a_wind x y z q) :
    FormFunctionLocal info { usr with a_wind := aw } au aF =
      FormFunctionLocal info usr au aF := by
  have hcell : ∀ (k j i : ℤ) (F : Idx → ℚ),
      cellStep info { usr with a_wind := aw } au k j i F =
        cellStep info usr au k j i F :=
    fun k j i F => cellStep_zwind info usr aw au k j i F hq
  simp only [FormFunctionLocal, hcell]

/-- C1 code evaluation: (1) the accumulation `switch` leaves the residual
array untouched for every `q = 2` (top-face) flux, on every grid and every
residual state — `case 3` (line 231) is unreachable since `q < 3`; (2)
consequently the entire assembled residual is independent of the
z-component of the wind, for every grid, field and initial array; (3) yet
the top-face flux the assembler computes can be nonzero: at the valid input
`infoB`/`usrZwind`/`auZperiodic` the face flux for `q = 2` at `(-1,1,1)`
(the bottom face of the owned cell `(0,1,1)`) is `1`.  Under the claim this
flux would contribute `-flux/hz` to the residual at `(0,1,1)`, but by (1)
and (2) it contributes nothing anywhere. -/
theorem top_face_flux_dropped :
    (∀ (info : LocalInfo) (k j i : ℤ) (flux : ℚ) (F : Idx → ℚ),
        fluxSwitch info k j i 2 flux F = F) ∧
    (∀ (info : LocalInfo) (usr : AdCtx ℚ) (aw : ℚ → ℚ → ℚ → ℕ → ℚ)
        (au aF : Idx → ℚ),
        (∀ x y z q, q ≠ 2 → aw x y z q = usr.a_wind x y z q) →
        FormFunctionLocal info { usr with a_wind := aw } au aF =
          FormFunctionLocal info usr au aF) ∧
    faceFlux infoB usrZwind auZperiodic (-1) 1 1 2 = 1 := by
  refine ⟨fun _ _ _ _ _ _ => rfl,
          fun info usr aw au aF hq =>
            FormFunctionLocal_zwind info usr aw au aF hq, ?_⟩
  norm_num [faceFlux, faceWind, usrZwind, auZperiodic, diq, djq, dkq]

/-- Witness for `top_face_flux_dropped`: zeroing the z wind component of
`usrZwind` (whose x and y components are already zero) leaves the
assembled residual unchanged on the concrete inputs. -/
theorem top_face_flux_dropped_witness :
    FormFunctionLocal infoB { usrZwind with a_wind := fun _ _ _ _ => 0 }
        auZperiodic (fun _ => 0) =
      FormFunctionLocal infoB usrZwind auZperiodic (fun _ => 0) :=
  top_face_flux_dropped.2.1 infoB usrZwind (fun _ _ _ _ => 0) auZperiodic
    (fun _ => 0) (fun x y z q hq => by simp [usrZwind, hq])

/-! ## C2: partitioned assembly differs from single-box assembly -/

/-- A 4×3×1 grid owned as a single box. -/
def infoC2full : LocalInfo :=
  { mx := 4, my := 3, mz := 1, xs := 0, xm := 4, ys := 0, ym := 3,
    zs := 0, zm := 1 }

/-- The right half of an x-split of the same 4×3×1 grid: owned box
`[2,4) × [0,3) × [0,1)` (its partner is `[0,2)`). -/
def infoC2right : LocalInfo :=
  { mx := 4, my := 3, mz := 1, xs := 2, xm := 2, ys := 0, ym := 3,
    zs := 0, zm := 1 }

/-- C2 code evaluation: for the constant global field `1` (ghosts trivially
correct) with unit wind, the single-box assembly gives residual `17/4` at
the interior cell `(0,1,2)`, but the assembly of the owning subdomain of an
x-split gives `23/4` at the same cell.  The subtraction of the flux at the
west face of the split plane (computed only by the iteration `i = 1` of the
left box, which skips the write because `i+1 = 2` is not owned there, and
never computed by the right box, whose `i` loop starts at `xs = 2`) is
lost. -/
theorem split_assembly_differs :
    FormFunctionLocal infoC2full usrNone (fun _ => 1) (fun _ => 0) (0, 1, 2)
      = 17/4 ∧
    FormFunctionLocal infoC2right usrNone (fun _ => 1) (fun _ => 0) (0, 1, 2)
      = 23/4 ∧
    (17/4 : ℚ) ≠ 23/4 := by
  refine ⟨?_, ?_, by norm_num⟩
  · have h1 : intRange (infoC2full.zs - 1) (infoC2full.zs + infoC2full.zm)
        = [-1, 0] := by decide
    have h2 : intRange infoC2full.ys (infoC2full.ys + infoC2full.ym)
        = [0, 1, 2] := by decide
    have h3 : intRange infoC2full.xs (infoC2full.xs + infoC2full.xm)
        = [0, 1, 2, 3] := by decide
    have h4 : intRange infoC2full.zs (infoC2full.zs + infoC2full.zm)
        = [0] := by decide
    simp only [FormFunctionLocal, clearF, h1, h2, h3, h4, List.foldl_cons,
      List.foldl_nil]
    norm_num [cellStep, nonAdvectiveStep, fluxSwitch, faceFlux, faceWind, upd, gridHx, gridHy,
      gridHz, cellX, cellY, cellZ, diq, djq, dkq, infoC2full, usrNone,
      List.range_succ]
  · have h1 : intRange (infoC2right.zs - 1) (infoC2right.zs + infoC2right.zm)
        = [-1, 0] := by decide
    have h2 : intRange infoC2right.ys (infoC2right.ys + infoC2right.ym)
        = [0, 1, 2] := by decide
    have h3 : intRange infoC2right.xs (infoC2right.xs + infoC2right.xm)
        = [2, 3] := by decide
    have h4 : intRange infoC2right.zs (infoC2right.zs + infoC2right.zm)
        = [0] := by decide
    simp only [FormFunctionLocal, clearF, h1, h2, h3, h4, List.foldl_cons,
      List.foldl_nil]
    norm_num [cellStep, nonAdvectiveStep, fluxSwitch, faceFlux, faceWind, upd, gridHx, gridHy,
      gridHz, cellX, cellY, cellZ, diq, djq, dkq, infoC2right, usrNone,
      List.range_succ]

/-! ## C3: an owned Dirichlet boundary cell receives an advective flux -/

/-- C3 code evaluation: on the 3×3×1 grid with unit wind and the constant
field `1`, the residual at the owned Dirichlet boundary cell `(0,0,1)`
(a `j = 0` cell, injected as `au - 0` by line 181) ends up `2`, not
`au - 0 = 1`: after the injection, the same iteration adds the east-face
flux `flux/hx = 1/(2/2) ... = 1` into it (line 220 guards only `i > 0`, not
`j > 0`), so an advective flux contribution survives in a Dirichlet cell. -/
theorem dirichlet_cell_gets_flux :
    FormFunctionLocal infoA usrNone (fun _ => 1) (fun _ => 0) (0, 0, 1) = 2 ∧
    (2 : ℚ) ≠ 1 - 0 := by
  refine ⟨?_, by norm_num⟩
  have h1 : intRange (infoA.zs - 1) (infoA.zs + infoA.zm) = [-1, 0] := by
    decide
  have h2 : intRange infoA.ys (infoA.ys + infoA.ym) = [0, 1, 2] := by decide
  have h3 : intRange infoA.xs (infoA.xs + infoA.xm) = [0, 1, 2] := by decide
  have h4 : intRange infoA.zs (infoA.zs + infoA.zm) = [0] := by decide
  simp only [FormFunctionLocal, clearF, h1, h2, h3, h4, List.foldl_cons,
    List.foldl_nil]
  norm_num [cellStep, nonAdvectiveStep, fluxSwitch, faceFlux, faceWind, upd, gridHx, gridHy,
    gridHz, cellX, cellY, cellZ, diq, djq, dkq, infoA, usrNone,
    List.range_succ]

/-! ## C4: the exact-solution evaluator uses different coordinates -/

/-- C4 code evaluation, on the 3×3×2 grid `infoB` (`my = 3`, `mz = 2`):
evaluating `FormLayerUExact` with the probe function `u = (x,y,z) ↦ y`
shows cell `(0,1,2)` is evaluated at `y = -1 + (1+0.5)·(2/(mz-1)) = 2`,
while the y-coordinate the residual routine uses for `j = 1` is
`cellY = -1 + 1·(2/(my-1)) = 0`; probing with `u = (x,y,z) ↦ z` shows cell
`(1,0,2)` is evaluated at `z = -1 + 3·(2/my) = 1` (the stale `j` variable,
equal to `ys+ym = 3` after the first inner loop, times the swapped spacing
`2/my`), while the residual routine uses `cellZ = -1 + (1+0.5)·(2/mz) =
1/2`.  So `FormLayerUExact` does not use the coordinate
convention of the residual routine: `hy` and `hz` are derived from the wrong dimensions (lines
127-128), `y` has a spurious half-cell offset (line 133), and `z` is
computed from the loop variable `j` instead of `k` (line 131). -/
theorem layer_uexact_coords_differ :
    FormLayerUExact infoB (fun _ y _ => (y : ℚ)) 0 (fun _ => 0) (0, 1, 2) = 2 ∧
    @cellY ℚ _ infoB 1 = 0 ∧
    FormLayerUExact infoB (fun _ _ z => (z : ℚ)) 0 (fun _ => 0) (1, 0, 2) = 1 ∧
    @cellZ ℚ _ infoB 1 = 1/2 ∧
    (2 : ℚ) ≠ 0 ∧ (1 : ℚ) ≠ 1/2 := by
  have h2 : intRange infoB.ys (infoB.ys + infoB.ym) = [0, 1, 2] := by decide
  have h3 : intRange infoB.xs (infoB.xs + infoB.xm) = [0, 1, 2] := by decide
  have h4 : intRange infoB.zs (infoB.zs + infoB.zm) = [0, 1] := by decide
  refine ⟨?_, ?_, ?_, ?_, by norm_num, by norm_num⟩
  · simp only [FormLayerUExact, h2, h3, h4, List.foldl_cons, List.foldl_nil]
    norm_num [upd, infoB]
  · norm_num [cellY, gridHy, infoB]
  · simp only [FormLayerUExact, h2, h3, h4, List.foldl_cons, List.foldl_nil]
    norm_num [upd, infoB]
  · norm_num [cellZ, gridHz, infoB]

/-! ## C10 machinery -/

lemma ownedCell_mk {info : LocalInfo} {a b c : ℤ}
    (h1 : info.zs ≤ a) (h2 : a < info.zs + info.zm)
    (h3 : info.ys ≤ b) (h4 : b < info.ys + info.ym)
    (h5 : info.xs ≤ c) (h6 : c < info.xs + info.xm) :
    ownedCell info (a, b, c) :=
  ⟨h1, h2, h3, h4, h5, h6⟩

lemma mem_intRangeAux {a lo : ℤ} {n : ℕ} :
    a ∈ intRangeAux lo n ↔ lo ≤ a ∧ a < lo + n := by
  induction n generalizing lo with
  | zero => simp [intRangeAux]
  | succ m ih =>
    simp only [intRangeAux, List.mem_cons, ih]
    omega

lemma mem_intRange {a lo hi : ℤ} : a ∈ intRange lo hi ↔ lo ≤ a ∧ a < hi := by
  unfold intRange
  rw [mem_intRangeAux]
  omega

lemma foldl_upd_row (k j : ℤ) (l : List ℤ) (F : Idx → ℚ) (p : Idx) :
    (l.foldl (fun Fi i => upd Fi (k, j, i) 0) F) p =
      if p.1 = k ∧ p.2.1 = j ∧ p.2.2 ∈ l then 0 else F p := by
  induction l generalizing F with
  | nil => simp
  | cons a t ih =>
    rcases p with ⟨pk, pj, pi⟩
    simp only [List.foldl_cons, ih, List.mem_cons]
    by_cases h1 : pk = k
    · by_cases h2 : pj = j
      · by_cases h3 : pi ∈ t
        · simp [h1, h2, h3]
        · by_cases h4 : pi = a
          · simp [upd, h1, h2, h3, h4]
          · simp [upd, h1, h2, h3, h4]
      · simp [upd, h2]
    · simp [upd, h1]

lemma foldl_clear_plane (k : ℤ) (js is0 : List ℤ) (F : Idx → ℚ) (p : Idx) :
    (js.foldl
        (fun Fj j => is0.foldl (fun Fi i => upd Fi (k, j, i) 0) Fj) F) p =
      if p.1 = k ∧ p.2.1 ∈ js ∧ p.2.2 ∈ is0 then 0 else F p := by
  induction js generalizing F with
  | nil => simp
  | cons a t ih =>
    rcases p with ⟨pk, pj, pi⟩
    simp only [List.foldl_cons, ih, foldl_upd_row, List.mem_cons]
    by_cases h1 : pk = k
    · by_cases h3 : pi ∈ is0
      · by_cases h2 : pj ∈ t
        · simp [h1, h2, h3]
        · by_cases h4 : pj = a
          · simp [h1, h2, h3, h4]
          · simp [h1, h2, h3, h4]
      · simp [h1, h3]
    · simp [h1]

lemma foldl_clear_box (ks js is0 : List ℤ) (F : Idx → ℚ) (p : Idx) :
    (ks.foldl
        (fun Fk k =>
          js.foldl
            (fun Fj j => is0.foldl (fun Fi i => upd Fi (k, j, i) 0) Fj) Fk)
        F) p =
      if p.1 ∈ ks ∧ p.2.1 ∈ js ∧ p.2.2 ∈ is0 then 0 else F p := by
  induction ks generalizing F with
  | nil => simp
  | cons a t ih =>
    rcases p with ⟨pk, pj, pi⟩
    simp only [List.foldl_cons, ih, foldl_clear_plane, List.mem_cons]
    by_cases h2 : pj ∈ js
    · by_cases h3 : pi ∈ is0
      · by_cases h1 : pk ∈ t
        · simp [h1, h2, h3]
        · by_cases h4 : pk = a
          · simp [h1, h2, h3, h4]
          · simp [h1, h2, h3, h4]
      · simp [h3]
    · simp [h2]

lemma clearF_apply (info : LocalInfo) (F : Idx → ℚ) (p : Idx) :
    clearF info F p = if ownedCell info p then 0 else F p := by
  unfold clearF
  rw [foldl_clear_box]
  simp only [mem_intRange, ownedCell]
  split
  · rename_i h
    rw [if_pos]
    omega
  · rename_i h
    rw [if_neg]
    omega

/-- Two residual arrays agreeing on every owned cell. -/
def agreeOwned (info : LocalInfo) (F G : Idx → ℚ) : Prop :=
  ∀ p, ownedCell info p → F p = G p

lemma agreeOwned_upd (info : LocalInfo) {F G : Idx → ℚ}
    (h : agreeOwned info F G) (p0 : Idx) {v w : ℚ} (hvw : v = w) :
    agreeOwned info (upd F p0 v) (upd G p0 w) := by
  intro p hp
  unfold upd
  split
  · exact hvw
  · exact h p hp

lemma fluxSwitch_agreeOwned (info : LocalInfo) {k j i : ℤ} (q : ℕ) (flux : ℚ)
    (hk1 : info.zs - 1 ≤ k) (hk2 : k < info.zs + info.zm)
    (hj1 : info.ys ≤ j) (hj2 : j < info.ys + info.ym)
    (hi1 : info.xs ≤ i) (hi2 : i < info.xs + info.xm)
    (hkq : q = 0 ∨ q = 1 → info.zs ≤ k)
    {F G : Idx → ℚ} (h : agreeOwned info F G) :
    agreeOwned info (fluxSwitch info k j i q flux F)
      (fluxSwitch info k j i q flux G) := by
  match q with
  | 0 =>
    have hzk : info.zs ≤ k := hkq (Or.inl rfl)
    have hFa : agreeOwned info
        (if 0 < i then upd F (k, j, i) (F (k, j, i) + flux / gridHx info)
         else F)
        (if 0 < i then upd G (k, j, i) (G (k, j, i) + flux / gridHx info)
         else G) := by
      split
      · exact agreeOwned_upd info h _
          (by rw [h (k, j, i) (ownedCell_mk hzk hk2 hj1 hj2 hi1 hi2)])
      · exact h
    simp only [fluxSwitch]
    split
    · rename_i hc
      exact agreeOwned_upd info hFa _
        (by rw [hFa (k, j, i + 1)
            (ownedCell_mk hzk hk2 hj1 hj2 (by omega) hc.2)])
    · exact hFa
  | 1 =>
    have hzk : info.zs ≤ k := hkq (Or.inr rfl)
    have hFa : agreeOwned info
        (if 0 < j then upd F (k, j, i) (F (k, j, i) + flux / gridHy info)
         else F)
        (if 0 < j then upd G (k, j, i) (G (k, j, i) + flux / gridHy info)
         else G) := by
      split
      · exact agreeOwned_upd info h _
          (by rw [h (k, j, i) (ownedCell_mk hzk hk2 hj1 hj2 hi1 hi2)])
      · exact h
    simp only [fluxSwitch]
    split
    · rename_i hc
      exact agreeOwned_upd info hFa _
        (by rw [hFa (k, j + 1, i)
            (ownedCell_mk hzk hk2 (by omega) hc.2 hi1 hi2)])
    · exact hFa
  | 2 => exact h
  | 3 =>
    have hFa : agreeOwned info
        (if info.zs ≤ k then
           upd F (k, j, i) (F (k, j, i) + flux / gridHz info)
         else F)
        (if info.zs ≤ k then
           upd G (k, j, i) (G (k, j, i) + flux / gridHz info)
         else G) := by
      split
      · rename_i hzk
        exact agreeOwned_upd info h _
          (by rw [h (k, j, i) (ownedCell_mk hzk hk2 hj1 hj2 hi1 hi2)])
      · exact h
    simp only [fluxSwitch]
    split
    · rename_i hc
      exact agreeOwned_upd info hFa _
        (by rw [hFa (k + 1, j, i)
            (ownedCell_mk (by omega) hc hj1 hj2 hi1 hi2)])
    · exact hFa
  | (n + 4) => exact h

lemma nonAdvectiveStep_agreeOwned (info : LocalInfo) (usr : AdCtx ℚ)
    (au : Idx → ℚ) {k j i : ℤ}
    (hk2 : k < info.zs + info.zm)
    (hj1 : info.ys ≤ j) (hj2 : j < info.ys + info.ym)
    (hi1 : info.xs ≤ i) (hi2 : i < info.xs + info.xm)
    {F G : Idx → ℚ} (h : agreeOwned info F G) :
    agreeOwned info (nonAdvectiveStep info usr au k j i F)
      (nonAdvectiveStep info usr au k j i G) := by
  unfold nonAdvectiveStep
  split
  · rename_i hzk
    split
    · exact agreeOwned_upd info h _ rfl
    · split
      · exact agreeOwned_upd info h _ rfl
      · exact agreeOwned_upd info h _
          (by rw [h (k, j, i) (ownedCell_mk hzk hk2 hj1 hj2 hi1 hi2)])
  · exact h

lemma cellStep_agreeOwned (info : LocalInfo) (usr : AdCtx ℚ) (au : Idx → ℚ)
    {k j i : ℤ}
    (hk1 : info.zs - 1 ≤ k) (hk2 : k < info.zs + info.zm)
    (hj1 : info.ys ≤ j) (hj2 : j < info.ys + info.ym)
    (hi1 : info.xs ≤ i) (hi2 : i < info.xs + info.xm)
    {F G : Idx → ℚ} (h : agreeOwned info F G) :
    agreeOwned info (cellStep info usr au k j i F)
      (cellStep info usr au k j i G) := by
  have hstep : ∀ (q : ℕ) {F G : Idx → ℚ}, agreeOwned info F G →
      agreeOwned info
        (if q < 2 ∧ k < info.zs then F
         else fluxSwitch info k j i q (faceFlux info usr au k j i q) F)
        (if q < 2 ∧ k < info.zs then G
         else fluxSwitch info k j i q (faceFlux info usr au k j i q) G) := by
    intro q F G hFG
    split
    · exact hFG
    · rename_i hc
      refine fluxSwitch_agreeOwned info q _ hk1 hk2 hj1 hj2 hi1 hi2 ?_ hFG
      intro hq01
      by_contra hzk
      exact hc ⟨by omega, by omega⟩
  have hF1 : agreeOwned info (nonAdvectiveStep info usr au k j i F)
      (nonAdvectiveStep info usr au k j i G) :=
    nonAdvectiveStep_agreeOwned info usr au hk2 hj1 hj2 hi1 hi2 h
  simp only [cellStep, show List.range 3 = [0, 1, 2] from rfl,
    List.foldl_cons, List.foldl_nil]
  split
  · exact hF1
  · exact hstep 2 (hstep 1 (hstep 0 hF1))

lemma foldl_row_agreeOwned (info : LocalInfo) (usr : AdCtx ℚ) (au : Idx → ℚ)
    (k j : ℤ) (l : List ℤ)
    (hk1 : info.zs - 1 ≤ k) (hk2 : k < info.zs + info.zm)
    (hj1 : info.ys ≤ j) (hj2 : j < info.ys + info.ym)
    (hl : ∀ x ∈ l, info.xs ≤ x ∧ x < info.xs + info.xm)
    {F G : Idx → ℚ} (h : agreeOwned info F G) :
    agreeOwned info
      (l.foldl (fun Fi i => cellStep info usr au k j i Fi) F)
      (l.foldl (fun Fi i => cellStep info usr au k j i Fi) G) := by
  induction l generalizing F G with
  | nil => exact h
  | cons a t ih =>
    simp only [List.foldl_cons]
    exact ih (fun x hx => hl x (List.mem_cons_of_mem a hx))
      (cellStep_agreeOwned info usr au hk1 hk2 hj1 hj2
        (hl a (List.mem_cons_self a t)).1 (hl a (List.mem_cons_self a t)).2 h)

lemma foldl_plane_agreeOwned (info : LocalInfo) (usr : AdCtx ℚ)
    (au : Idx → ℚ) (k : ℤ) (lj : List ℤ)
    (hk1 : info.zs - 1 ≤ k) (hk2 : k < info.zs + info.zm)
    (hlj : ∀ x ∈ lj, info.ys ≤ x ∧ x < info.ys + info.ym)
    {F G : Idx → ℚ} (h : agreeOwned info F G) :
    agreeOwned info
      (lj.foldl
        (fun Fj j =>
          (intRange info.xs (info.xs + info.xm)).foldl
            (fun Fi i => cellStep info usr au k j i Fi) Fj) F)
      (lj.foldl
        (fun Fj j =>
          (intRange info.xs (info.xs + info.xm)).foldl
            (fun Fi i => cellStep info usr au k j i Fi) Fj) G) := by
  induction lj generalizing F G with
  | nil => exact h
  | cons a t ih =>
    simp only [List.foldl_cons]
    exact ih (fun x hx => hlj x (List.mem_cons_of_mem a hx))
      (foldl_row_agreeOwned info usr au k a _ hk1 hk2
        (hlj a (List.mem_cons_self a t)).1 (hlj a (List.mem_cons_self a t)).2
        (fun x hx => mem_intRange.mp hx) h)

lemma foldl_box_agreeOwned (info : LocalInfo) (usr : AdCtx ℚ)
    (au : Idx → ℚ) (lk : List ℤ)
    (hlk : ∀ x ∈ lk, info.zs - 1 ≤ x ∧ x < info.zs + info.zm)
    {F G : Idx → ℚ} (h : agreeOwned info F G) :
    agreeOwned info
      (lk.foldl
        (fun Fk k =>
          (intRange info.ys (info.ys + info.ym)).foldl
            (fun Fj j =>
              (intRange info.xs (info.xs + info.xm)).foldl
                (fun Fi i => cellStep info usr au k j i Fi) Fj) Fk) F)
      (lk.foldl
        (fun Fk k =>
          (intRange info.ys (info.ys + info.ym)).foldl
            (fun Fj j =>
              (intRange info.xs (info.xs + info.xm)).foldl
                (fun Fi i => cellStep info usr au k j i Fi) Fj) Fk) G) := by
  induction lk generalizing F G with
  | nil => exact h
  | cons a t ih =>
    simp only [List.foldl_cons]
    exact ih (fun x hx => hlk x (List.mem_cons_of_mem a hx))
      (foldl_plane_agreeOwned info usr au a _
        (hlk a (List.mem_cons_self a t)).1 (hlk a (List.mem_cons_self a t)).2
        (fun x hx => mem_intRange.mp hx) h)

/-- C10: the assembled residual is independent of the initial contents of
the output array: for any two initial arrays `F`, `G` and the same field,
grid and configuration, `FormFunctionLocal` produces identical values at
every owned cell, because the clearing loop (lines 163-167) first sets every
owned entry to 0 and every later read or write of the residual array by the
loop body stays inside the owned box. -/
theorem residual_initial_independent (info : LocalInfo) (usr : AdCtx ℚ)
    (au F G : Idx → ℚ) (p : Idx) (hp : ownedCell info p) :
    FormFunctionLocal info usr au F p = FormFunctionLocal info usr au G p := by
  have hclear : agreeOwned info (clearF info F) (clearF info G) := by
    intro r hr
    rw [clearF_apply, clearF_apply, if_pos hr, if_pos hr]
  exact foldl_box_agreeOwned info usr au _
    (fun x hx => by
      have := mem_intRange.mp hx
      omega) hclear p hp

/-- Witness for `residual_initial_independent`: two different initial
arrays (constant 5 and constant 0) give the same residual at the owned cell
`(0,1,1)` of the 3×3×1 grid. -/
theorem residual_initial_independent_witness :
    FormFunctionLocal infoA usrNone (fun _ => 1) (fun _ => 5) (0, 1, 1) =
      FormFunctionLocal infoA usrNone (fun _ => 1) (fun _ => 0) (0, 1, 1) :=
  residual_initial_independent infoA usrNone (fun _ => 1) (fun _ => 5)
    (fun _ => 0) (0, 1, 1) (by decide)
